import Mathlib

/-!
Verification development for the thunder-speech checkpoint-normalization
subsystem: registry dispatch (`thunder/registry.py`), the Quartznet
checkpoint weight remapping and strict loading
(`thunder/quartznet/compatibility.py`), the `load_from_nemo` parameter
dispatch (`thunder/quartznet/module.py`), and the vocabulary and
padding/kernel helpers described in the design document (their Python
sources, `thunder/text_processing/vocab.py` and
`thunder/quartznet/blocks.py`, are exercised by the repository's test
suite; the models below follow the design document where noted).

Keys of PyTorch state dictionaries are modelled as lists of characters,
weight values are abstracted by a type parameter, and fallible Python
functions (raising `ValueError` / `KeyError` / strict-load errors) are
modelled with `Except String`.
-/

namespace ThunderSpeech

/-! ## String helpers

Python `str.replace(old, new)` scans left to right and replaces every
non-overlapping occurrence; Python `old in s` is substring containment.
Both are modelled on `List Char`. -/

/-- Left-to-right replacement of every non-overlapping occurrence of
`pattern` by `repl`, as Python `str.replace`.  An empty `pattern` leaves
the string unchanged (the remapping rules of the source only ever use
non-empty patterns). -/
def replaceAll (pattern repl : List Char) (s : List Char) : List Char :=
  match s with
  | [] => []
  | c :: rest =>
    if pattern ≠ [] ∧ pattern.isPrefixOf (c :: rest) then
      repl ++ replaceAll pattern repl (rest.drop (pattern.length - 1))
    else
      c :: replaceAll pattern repl rest
termination_by s.length
decreasing_by
  · simp only [List.length_cons, List.length_drop]
    omega
  · simp only [List.length_cons]
    omega

/-- Substring containment, as Python `pattern in s`. -/
def containsSub (pattern : List Char) (s : List Char) : Bool :=
  match s with
  | [] => pattern.isEmpty
  | _ :: rest => pattern.isPrefixOf s || containsSub pattern rest

/-! ## Quartznet checkpoint compatibility
(`thunder/quartznet/compatibility.py`, `load_quartznet_weights`) -/

/-- Key remapping applied to every encoder weight key in
`load_quartznet_weights`:
`k.replace("encoder.", "").replace(".conv", "").replace(".res.0", ".res")`. -/
def remap_key (k : List Char) : List Char :=
  replaceAll (".res.0".data) (".res".data)
    (replaceAll (".conv".data) [] (replaceAll ("encoder.".data) [] k))

/-- Key remapping applied to every decoder weight key in
`load_quartznet_weights`: `k.replace("decoder.decoder_layers.", "")`. -/
def remap_decoder_key (k : List Char) : List Char :=
  replaceAll ("decoder.decoder_layers.".data) [] k

/-- The encoder weight dictionary built by `load_quartznet_weights`:
entries whose key contains `"encoder"`, with keys remapped. -/
def encoderWeights {α : Type} (weights : List (List Char × α)) :
    List (List Char × α) :=
  (weights.filter (fun kv => containsSub ("encoder".data) kv.1)).map
    (fun kv => (remap_key kv.1, kv.2))

/-- The decoder weight dictionary built by `load_quartznet_weights`:
entries whose key contains `"decoder"`, with keys remapped. -/
def decoderWeights {α : Type} (weights : List (List Char × α)) :
    List (List Char × α) :=
  (weights.filter (fun kv => containsSub ("decoder".data) kv.1)).map
    (fun kv => (remap_decoder_key kv.1, kv.2))

/-- Two key lists denote the same key set (no missing and no unexpected
keys); this is the success condition of a PyTorch
`load_state_dict(..., strict=True)` call. -/
def sameKeySet (ks ps : List (List Char)) : Bool :=
  ks.all (fun k => ps.contains k) && ps.all (fun p => ks.contains p)

/-- Strict-mode `Module.load_state_dict`: succeeds, returning the applied
weight assignment, exactly when the weight keys coincide with the module's
parameter names; any mismatch raises. -/
def load_state_dict {α : Type} (params : List (List Char))
    (weights : List (List Char × α)) :
    Except String (List (List Char × α)) :=
  if sameKeySet (weights.map Prod.fst) params then
    Except.ok weights
  else
    Except.error "Error(s) in loading state_dict"

/-- Model of `load_quartznet_weights`: the encoder and decoder modules are
abstracted by their parameter-name lists, the checkpoint by its key/value
list.  The weight keys are remapped as in the source and then loaded in
strict mode into each module; the pair of applied weight assignments is
returned only when both strict loads succeed. -/
def load_quartznet_weights {α : Type} (encParams decParams : List (List Char))
    (weights : List (List Char × α)) :
    Except String (List (List Char × α) × List (List Char × α)) := do
  let encoder_weights := encoderWeights weights
  let e ← load_state_dict encParams encoder_weights
  let decoder_weights := decoderWeights weights
  let d ← load_state_dict decParams decoder_weights
  return (e, d)

/-! ## Checkpoint registry (`thunder/registry.py`, `load_checkpoint_data`) -/

/-- Model of `load_checkpoint_data`.  The registry dictionary is a list of
(name, loader-result) pairs, and the HuggingFace adapter
`load_huggingface_checkpoint` is abstracted by the function `hf` from the
checkpoint name to the data it loads.  A name containing the character `/`
routes to the HuggingFace adapter; otherwise the name is looked up in the
registry dictionary, a miss raising a `KeyError`. -/
def load_checkpoint_data {R : Type} (hf : String → R)
    (registry : List (String × R)) (checkpoint_name : String) :
    Except String R :=
  if containsSub ("/".data) checkpoint_name.data then
    Except.ok (hf checkpoint_name)
  else
    match registry.lookup checkpoint_name with
    | some r => Except.ok r
    | none => Except.error ("KeyError: " ++ checkpoint_name)

/-! ## Quartznet module (`thunder/quartznet/module.py`,
`QuartznetModule.load_from_nemo`) -/

/-- Model of the parameter dispatch of `QuartznetModule.load_from_nemo`.
When `checkpoint_name` is given, the checkpoint is downloaded and its path
overwrites `nemo_filepath`; then a `ValueError` is raised when both the
(possibly reassigned) filepath and the checkpoint name are `None`.
Otherwise the function proceeds to build the module from the archive at the
resulting filepath, which the model returns. -/
def load_from_nemo (download_checkpoint : String → String)
    (nemo_filepath checkpoint_name : Option String) :
    Except String (Option String) :=
  let fp : Option String :=
    match checkpoint_name with
    | some nm => some (download_checkpoint nm)
    | none => nemo_filepath
  if fp = none ∧ checkpoint_name = none then
    Except.error "Either nemo_filepath or checkpoint_name must be passed"
  else
    Except.ok fp

/-! ## Vocabulary

Modelled from the spec: the class `Vocab` of
`thunder/text_processing/vocab.py` is not among the provided sources (only
its test suite `tests/test_text_vocab.py` is).  The model follows design
document §4.1: the index list holds the base tokens first in the given
order, then any special tokens not already present, appended in the
canonical order start, end, pad, unknown, blank; `numericalize` substitutes
the unknown index for absent tokens; `decode_into_text` fails on an
out-of-range index; construction fails when the blank and unknown tokens
share an index or fewer than 4 distinct indices exist among the five
special-token slots. -/

structure Vocab where
  itos : List String
  start_token : String
  end_token : String
  pad_token : String
  unknown_token : String
  blank_token : String
  deriving Repr, DecidableEq

/-- The token-to-index dictionary, built from the enumeration of `itos`. -/
def Vocab.stoi (v : Vocab) : List (String × Nat) :=
  v.itos.enum.map (fun p => (p.2, p.1))

def Vocab.start_idx (v : Vocab) : Nat := List.indexOf v.start_token v.itos

def Vocab.end_idx (v : Vocab) : Nat := List.indexOf v.end_token v.itos

def Vocab.pad_idx (v : Vocab) : Nat := List.indexOf v.pad_token v.itos

def Vocab.unknown_idx (v : Vocab) : Nat := List.indexOf v.unknown_token v.itos

def Vocab.blank_idx (v : Vocab) : Nat := List.indexOf v.blank_token v.itos

/-- Append a token to the index list unless it is already present. -/
def appendToken (l : List String) (t : String) : List String :=
  if t ∈ l then l else l ++ [t]

/-- Modelled from the spec: construction of a `Vocab` from the base tokens
and the five special tokens, with the construction-time invariant checks of
design document §4.1 (a violation raises). -/
def mkVocab (initial_vocab_tokens : List String)
    (start_token end_token pad_token unknown_token blank_token : String) :
    Except String Vocab :=
  let itos :=
    [start_token, end_token, pad_token, unknown_token, blank_token].foldl
      appendToken initial_vocab_tokens
  let v : Vocab :=
    ⟨itos, start_token, end_token, pad_token, unknown_token, blank_token⟩
  if v.blank_idx = v.unknown_idx then
    Except.error "blank token and unknown token share an index"
  else if ([v.start_idx, v.end_idx, v.pad_idx, v.unknown_idx,
      v.blank_idx].dedup).length < 4 then
    Except.error "special tokens must occupy at least 4 distinct indices"
  else
    Except.ok v

/-- Modelled from the spec: `numericalize` maps each token to its index,
substituting the unknown index when absent; it never fails on unseen
tokens. -/
def Vocab.numericalize (v : Vocab) (tokens : List String) : List Nat :=
  tokens.map (fun t => if t ∈ v.itos then List.indexOf t v.itos else
    v.unknown_idx)

/-- Modelled from the spec: `decode_into_text` is the inverse mapping,
an out-of-range index being an error condition (modelled by `none`). -/
def Vocab.decode_into_text (v : Vocab) : List Nat → Option (List String)
  | [] => some []
  | i :: rest =>
    match v.itos[i]?, v.decode_into_text rest with
    | some t, some ts => some (t :: ts)
    | _, _ => none

/-! ## Padding and kernel math

Modelled from the spec: the functions `get_same_padding` and
`compute_new_kernel_size` of `thunder/quartznet/blocks.py` are not among
the provided sources (only their test suite `tests/test_quartznet_blocks.py`
is).  The models follow design document §4.3. -/

/-- Modelled from the spec: `get_same_padding` computes the symmetric
padding `dilation * (kernel_size - 1) // 2` that preserves the same-style
output length at stride 1, and raises a `ValueError` when stride and
dilation are both greater than 1, since no integer padding satisfies the
same-output constraint in that combination. -/
def get_same_padding (kernel_size stride dilation : Nat) :
    Except String Nat :=
  if stride > 1 ∧ dilation > 1 then
    Except.error "Only stride OR dilation may be greater than 1"
  else
    Except.ok (dilation * (kernel_size - 1) / 2)

/-- The convolution output-size formula
`floor((i + 2p - d(k-1) - 1)/s + 1)` (design document §4.3 and the Conv1d
documentation); `Int.fdiv` is floor division, as Python's `floor` of a real
quotient. -/
def conv_outsize (i p k s d : Int) : Int :=
  (i + 2 * p - d * (k - 1) - 1).fdiv s + 1

/-- Modelled from the spec: `compute_new_kernel_size` scales the kernel
size by the multiplier, rounds (rounding modelled as truncation toward
zero, i.e. floor on the nonnegative domain — the reading consistent with
the required monotonicity and with the repository's test
`test_compute_kernel_size`), clamps to at least 1, and forces the result
odd by incrementing an even value. -/
def compute_new_kernel_size (kernel_size : Nat) (kernel_width : ℚ) : Nat :=
  let scaled := max (⌊(kernel_size : ℚ) * kernel_width⌋.toNat) 1
  if scaled % 2 = 0 then scaled + 1 else scaled

end ThunderSpeech

namespace ThunderSpeech

/-- Claim C2: for every checkpoint name passed to `load_checkpoint_data`,
a name containing the path-separator character `/` routes unconditionally
to the HuggingFace adapter regardless of registry contents; otherwise the
name is looked up in the registry and that loader is invoked. -/
theorem load_checkpoint_data_routing {R : Type} (hf : String → R)
    (registry : List (String × R)) (checkpoint_name : String) :
    (containsSub ("/".data) checkpoint_name.data = true →
      load_checkpoint_data hf registry checkpoint_name =
        Except.ok (hf checkpoint_name)) ∧
    (containsSub ("/".data) checkpoint_name.data = false → ∀ r,
      registry.lookup checkpoint_name = some r →
      load_checkpoint_data hf registry checkpoint_name = Except.ok r) := by
  constructor
  · intro h
    simp [load_checkpoint_data, h]
  · intro h r hr
    simp [load_checkpoint_data, h, hr]

/-- Witness for C2: `"facebook/wav2vec2-base-960h"` routes to the
HuggingFace adapter even though the registry holds an unrelated entry, and
a registered slash-free name routes to the registry loader. -/
theorem load_checkpoint_data_routing_witness :
    load_checkpoint_data (fun n => "HF:" ++ n)
      [("QuartzNet5x5LS_En", "registered")] "facebook/wav2vec2-base-960h" =
      Except.ok ("HF:" ++ "facebook/wav2vec2-base-960h") ∧
    load_checkpoint_data (fun n => "HF:" ++ n)
      [("QuartzNet5x5LS_En", "registered")] "QuartzNet5x5LS_En" =
      Except.ok "registered" :=
  ⟨(load_checkpoint_data_routing _ _ _).1 (by decide),
   (load_checkpoint_data_routing _ _ _).2 (by decide) _ (by decide)⟩

/-- Claim C9: a checkpoint name without `/` that is not a registry key
makes `load_checkpoint_data` fail with a key-error lookup miss surfaced to
the caller; it never falls back to another loader or returns a default. -/
theorem load_checkpoint_data_lookup_miss {R : Type} (hf : String → R)
    (registry : List (String × R)) (checkpoint_name : String)
    (hslash : containsSub ("/".data) checkpoint_name.data = false)
    (hmiss : registry.lookup checkpoint_name = none) :
    load_checkpoint_data hf registry checkpoint_name =
      Except.error ("KeyError: " ++ checkpoint_name) := by
  simp [load_checkpoint_data, hslash, hmiss]

/-- Witness for C9: an unknown slash-free identifier raises a key error
even though a HuggingFace adapter and a registry entry exist. -/
theorem load_checkpoint_data_lookup_miss_witness :
    load_checkpoint_data (fun _ => 0) [("QuartzNet5x5LS_En", 1)]
      "NotARealCheckpoint" =
      Except.error ("KeyError: " ++ "NotARealCheckpoint") :=
  load_checkpoint_data_lookup_miss _ _ _ (by decide) (by decide)

/-- Claim C10: `QuartznetModule.load_from_nemo` raises `ValueError` exactly
when `nemo_filepath` and `checkpoint_name` are both `None`; when both are
supplied, `checkpoint_name` takes precedence (the downloaded checkpoint
path overwrites the given `nemo_filepath`) and no error is raised. -/
theorem load_from_nemo_dispatch (download_checkpoint : String → String)
    (nemo_filepath checkpoint_name : Option String) :
    ((∃ msg, load_from_nemo download_checkpoint nemo_filepath
        checkpoint_name = Except.error msg) ↔
      (nemo_filepath = none ∧ checkpoint_name = none)) ∧
    (∀ p nm, nemo_filepath = some p → checkpoint_name = some nm →
      load_from_nemo download_checkpoint nemo_filepath checkpoint_name =
        Except.ok (some (download_checkpoint nm))) := by
  cases checkpoint_name <;> cases nemo_filepath <;>
    simp [load_from_nemo]

/-- Witness for C10: with both a local filepath and a checkpoint name
supplied, the downloaded checkpoint path wins and no error is raised. -/
theorem load_from_nemo_dispatch_witness :
    load_from_nemo (fun nm => "downloads/" ++ nm) (some "local.nemo")
      (some "QuartzNet5x5LS-En") =
      Except.ok (some ("downloads/" ++ "QuartzNet5x5LS-En")) :=
  (load_from_nemo_dispatch _ _ _).2 "local.nemo" "QuartzNet5x5LS-En" rfl rfl

/-- Claim C7: whenever stride and dilation are simultaneously greater
than 1, `get_same_padding` raises and does not return a value. -/
theorem get_same_padding_raises (kernel_size stride dilation : Nat)
    (hs : stride > 1) (hd : dilation > 1) :
    get_same_padding kernel_size stride dilation =
      Except.error "Only stride OR dilation may be greater than 1" := by
  simp [get_same_padding, hs, hd]

/-- Witness for C7: stride 2 with dilation 2 raises. -/
theorem get_same_padding_raises_witness :
    get_same_padding 33 2 2 =
      Except.error "Only stride OR dilation may be greater than 1" :=
  get_same_padding_raises 33 2 2 (by decide) (by decide)

end ThunderSpeech

namespace ThunderSpeech

/-- Claim C5: `numericalize` maps each token absent from the vocabulary to
the unknown index and never fails on unseen tokens: the output always has
one index per input token, and every out-of-vocabulary position holds the
unknown index. -/
theorem numericalize_never_fails (v : Vocab) (tokens : List String) :
    (v.numericalize tokens).length = tokens.length ∧
    (∀ (i : Nat) (t : String), tokens[i]? = some t → t ∉ v.itos →
      (v.numericalize tokens)[i]? = some v.unknown_idx) := by
  constructor
  · simp [Vocab.numericalize]
  · intro i t ht hmem
    simp [Vocab.numericalize, List.getElem?_map, ht, hmem]

/-- Witness for C5: the unseen token `"$"` is numericalized to the unknown
index. -/
theorem numericalize_never_fails_witness :
    (let v : Vocab := ⟨[" ", "a", "b", "c", "<s>", "</s>", "<p>", "<u>", "<b>"],
      "<s>", "</s>", "<p>", "<u>", "<b>"⟩
    (v.numericalize ["a", "b", "c", "$"])[3]? = some v.unknown_idx) :=
  (numericalize_never_fails _ _).2 3 "$" (by decide) (by decide)

/-- Claim C4: for every vocabulary and every token sequence containing only
known tokens, decoding the numericalized sequence gives back the original
sequence. -/
theorem decode_numericalize_roundtrip (v : Vocab) (tokens : List String)
    (h : ∀ t ∈ tokens, t ∈ v.itos) :
    v.decode_into_text (v.numericalize tokens) = some tokens := by
  induction tokens with
  | nil => rfl
  | cons t ts ih =>
    have hmem : t ∈ v.itos := h t (List.mem_cons_self t ts)
    have hrest : ∀ x ∈ ts, x ∈ v.itos := fun x hx =>
      h x (List.mem_cons_of_mem t hx)
    have hidx : List.indexOf t v.itos < v.itos.length :=
      List.indexOf_lt_length.mpr hmem
    have hget : v.itos[List.indexOf t v.itos]? = some t := by
      rw [List.getElem?_eq_getElem hidx, List.getElem_indexOf hidx]
    have ihr := ih hrest
    simp only [Vocab.numericalize, List.map_cons] at ihr ⊢
    rw [Vocab.decode_into_text, if_pos hmem, hget, ihr]

/-- Witness for C4: a concrete known-token sequence round-trips. -/
theorem decode_numericalize_roundtrip_witness :
    (let v : Vocab := ⟨[" ", "a", "b", "c", "<s>", "</s>", "<p>", "<u>", "<b>"],
      "<s>", "</s>", "<p>", "<u>", "<b>"⟩
    v.decode_into_text (v.numericalize ["a", "b", "c"]) =
      some ["a", "b", "c"]) :=
  decode_numericalize_roundtrip _ _ (by decide)

end ThunderSpeech

namespace ThunderSpeech

/-- Appending a fresh token preserves distinctness of the index list. -/
theorem appendToken_nodup {l : List String} (h : l.Nodup) (t : String) :
    (appendToken l t).Nodup := by
  unfold appendToken
  split
  · exact h
  · next hmem =>
    simp [List.nodup_append, h, hmem]

/-- Claim C3: every vocabulary built from unique base tokens plus special
tokens has as many indices as dictionary entries, the dictionary keys are
distinct, every (token, index) pair of `stoi` satisfies
`itos[index] = token`, the blank index differs from the unknown index
(construction raises on violation), and at least 4 distinct indices exist
among the five special-token slots. -/
theorem mkVocab_invariants (base : List String)
    (st en pa un bl : String) (v : Vocab) (hnd : base.Nodup)
    (h : mkVocab base st en pa un bl = Except.ok v) :
    v.itos.length = v.stoi.length ∧
    (v.stoi.map Prod.fst).Nodup ∧
    (∀ (t : String) (i : Nat), (t, i) ∈ v.stoi → v.itos[i]? = some t) ∧
    v.blank_idx ≠ v.unknown_idx ∧
    4 ≤ ([v.start_idx, v.end_idx, v.pad_idx, v.unknown_idx,
      v.blank_idx].dedup).length := by
  unfold mkVocab at h
  dsimp only at h
  split at h
  · exact absurd h (by simp)
  · split at h
    · exact absurd h (by simp)
    · next h1 h2 =>
      injection h with hv
      subst hv
      refine ⟨?_, ?_, ?_, h1, by omega⟩
      · simp [Vocab.stoi]
      · have hit : (List.foldl appendToken base [st, en, pa, un, bl]).Nodup := by
          simp only [List.foldl]
          exact appendToken_nodup (appendToken_nodup (appendToken_nodup
            (appendToken_nodup (appendToken_nodup hnd st) en) pa) un) bl
        have hkeys : (Vocab.stoi ⟨List.foldl appendToken base
            [st, en, pa, un, bl], st, en, pa, un, bl⟩).map Prod.fst =
            List.foldl appendToken base [st, en, pa, un, bl] := by
          simp [Vocab.stoi, List.map_map, Function.comp]
          exact List.enum_map_snd _
        rw [hkeys]
        exact hit
      · intro t i hti
        simp only [Vocab.stoi, List.mem_map] at hti
        obtain ⟨p, hp, hpe⟩ := hti
        have hpi : (i, t) = p := by
          cases p
          simp at hpe
          simp [hpe]
        subst hpi
        exact List.mem_enum_iff_getElem?.mp hp

/-- Witness for C3: the invariants hold for a concrete vocabulary built
from four base tokens and five distinct special tokens. -/
theorem mkVocab_invariants_witness :
    (let v : Vocab := ⟨[" ", "a", "b", "c", "<s>", "</s>", "<p>", "<u>", "<b>"],
      "<s>", "</s>", "<p>", "<u>", "<b>"⟩
    v.itos.length = v.stoi.length ∧
    (v.stoi.map Prod.fst).Nodup ∧
    (∀ (t : String) (i : Nat), (t, i) ∈ v.stoi → v.itos[i]? = some t) ∧
    v.blank_idx ≠ v.unknown_idx ∧
    4 ≤ ([v.start_idx, v.end_idx, v.pad_idx, v.unknown_idx,
      v.blank_idx].dedup).length) :=
  mkVocab_invariants [" ", "a", "b", "c"] "<s>" "</s>" "<p>" "<u>" "<b>" _
    (by decide) rfl

end ThunderSpeech

namespace ThunderSpeech

/-- Claim C8: for kernel sizes in [1,90) and width multipliers in [0,3),
`compute_new_kernel_size` is odd and positive, a multiplier below 1 never
enlarges the kernel, and a multiplier of at least 1 never shrinks it. -/
theorem compute_new_kernel_size_spec (kernel_size : Nat) (kernel_width : ℚ)
    (hk1 : 1 ≤ kernel_size) (hk2 : kernel_size < 90)
    (hw0 : 0 ≤ kernel_width) (hw3 : kernel_width < 3) :
    compute_new_kernel_size kernel_size kernel_width % 2 = 1 ∧
    0 < compute_new_kernel_size kernel_size kernel_width ∧
    (kernel_width < 1 →
      compute_new_kernel_size kernel_size kernel_width ≤ kernel_size) ∧
    (1 ≤ kernel_width →
      kernel_size ≤ compute_new_kernel_size kernel_size kernel_width) := by
  have hkQ : (0 : ℚ) < (kernel_size : ℚ) := by exact_mod_cast hk1
  have hA : kernel_width < 1 →
      ⌊(kernel_size : ℚ) * kernel_width⌋ < (kernel_size : ℤ) := by
    intro hw
    refine Int.floor_lt.mpr ?_
    push_cast
    exact mul_lt_of_lt_one_right hkQ hw
  have hB : 1 ≤ kernel_width →
      (kernel_size : ℤ) ≤ ⌊(kernel_size : ℚ) * kernel_width⌋ := by
    intro hw
    refine Int.le_floor.mpr ?_
    push_cast
    nlinarith
  simp only [compute_new_kernel_size]
  refine ⟨?_, ?_, ?_, ?_⟩
  · split
    · next hpar => omega
    · next hpar => omega
  · split
    · next hpar => omega
    · next hpar => omega
  · intro hw
    have := hA hw
    split
    · next hpar => omega
    · next hpar => omega
  · intro hw
    have := hB hw
    split
    · next hpar => omega
    · next hpar => omega

/-- Witness for C8: kernel size 5 with multiplier 2 gives the odd enlarged
kernel 11. -/
theorem compute_new_kernel_size_spec_witness :
    compute_new_kernel_size 5 2 % 2 = 1 ∧
    0 < compute_new_kernel_size 5 2 ∧
    ((2 : ℚ) < 1 → compute_new_kernel_size 5 2 ≤ 5) ∧
    ((1 : ℚ) ≤ 2 → 5 ≤ compute_new_kernel_size 5 2) :=
  compute_new_kernel_size_spec 5 2 (by norm_num) (by norm_num)
    (by norm_num) (by norm_num)

end ThunderSpeech

namespace ThunderSpeech

/-- Ceiling of an integer quotient, expressed with Euclidean division. -/
theorem ceil_intCast_div (a b : ℤ) (hb : 0 < b) :
    ⌈(a : ℚ) / (b : ℚ)⌉ = (a + b - 1) / b := by
  have hbQ : (0 : ℚ) < (b : ℚ) := by exact_mod_cast hb
  have h1 := Int.ediv_add_emod (a + b - 1) b
  have h2 := Int.emod_nonneg (a + b - 1) (by omega : b ≠ 0)
  have h3 := Int.emod_lt_of_pos (a + b - 1) hb
  rw [Int.ceil_eq_iff]
  constructor
  · rw [lt_div_iff₀ hbQ]
    have hz : ((a + b - 1) / b : ℤ) * b - b < a := by nlinarith
    have hq : (((a + b - 1) / b : ℤ) : ℚ) * (b : ℚ) - (b : ℚ) < (a : ℚ) := by
      exact_mod_cast hz
    linarith
  · rw [div_le_iff₀ hbQ]
    have hz : a ≤ ((a + b - 1) / b : ℤ) * b := by nlinarith
    exact_mod_cast hz

/-- Ceiling of a quotient of naturals, expressed with Euclidean division. -/
theorem ceil_natCast_div (a b : ℕ) (hb : 0 < b) :
    ⌈(a : ℚ) / (b : ℚ)⌉ = ((a : ℤ) + (b : ℤ) - 1) / (b : ℤ) := by
  have h := ceil_intCast_div (a : ℤ) (b : ℤ) (by exact_mod_cast hb)
  simpa using h

/-- Claim C6: over the tested ranges, the padding returned by
`get_same_padding` makes the convolution output size `ceil(i / stride)`
at unit dilation, and preserves the input length at unit stride for
dilations 2 through 5 and odd kernels. -/
theorem get_same_padding_output_size :
    (∀ (i s k p : Nat), 10 ≤ i → i < 10000 → 1 ≤ s → s ≤ 4 → 3 ≤ k →
      k < 100 → k % 2 = 1 → get_same_padding k s 1 = Except.ok p →
      conv_outsize (i : ℤ) (p : ℤ) (k : ℤ) (s : ℤ) 1 = ⌈(i : ℚ) / (s : ℚ)⌉) ∧
    (∀ (i d k p : Nat), 2 ≤ d → d ≤ 5 → k % 2 = 1 →
      get_same_padding k 1 d = Except.ok p →
      conv_outsize (i : ℤ) (p : ℤ) (k : ℤ) 1 (d : ℤ) = (i : ℤ)) := by
  constructor
  · intro i s k p hi1 hi2 hs1 hs4 hk1 hk2 hkodd hok
    have hp : p = 1 * (k - 1) / 2 := by
      simp [get_same_padding] at hok
      omega
    rw [ceil_natCast_div _ _ hs1]
    unfold conv_outsize
    have hnum : (i : ℤ) + 2 * (p : ℤ) - 1 * ((k : ℤ) - 1) - 1 =
        (i : ℤ) - 1 := by
      omega
    rw [hnum, Int.fdiv_eq_ediv _ (by omega : (0 : ℤ) ≤ (s : ℤ))]
    have hib : (i : ℤ) + (s : ℤ) - 1 = ((i : ℤ) - 1) + 1 * (s : ℤ) := by ring
    rw [hib, Int.add_mul_ediv_right _ _ (by omega : (s : ℤ) ≠ 0)]
  · intro i d k p hd2 hd5 hkodd hok
    have hp : p = d * (k - 1) / 2 := by
      simp [get_same_padding] at hok
      omega
    unfold conv_outsize
    rw [Int.fdiv_one]
    interval_cases d <;> omega

/-- Witness for C6: input 100 with kernel 33 and stride 2 gives output
size 50, and input 50 with kernel 33 and dilation 2 at stride 1 keeps
length 50. -/
theorem get_same_padding_output_size_witness :
    conv_outsize 100 16 33 2 1 = ⌈(100 : ℚ) / (2 : ℚ)⌉ ∧
    conv_outsize 50 32 33 1 2 = 50 :=
  ⟨(get_same_padding_output_size).1 100 2 33 16 (by norm_num) (by norm_num)
      (by norm_num) (by norm_num) (by norm_num) (by norm_num) (by norm_num)
      rfl,
   (get_same_padding_output_size).2 50 2 33 32 (by norm_num) (by norm_num)
      (by norm_num) rfl⟩

end ThunderSpeech

namespace ThunderSpeech

/-- Replacement begins by consuming a leading occurrence of the pattern. -/
theorem replaceAll_pattern_append (pattern repl s : List Char)
    (hp : pattern ≠ []) :
    replaceAll pattern repl (pattern ++ s) =
      repl ++ replaceAll pattern repl s := by
  match pattern, hp with
  | c :: p', _ =>
    have hpre : (c :: p').isPrefixOf ((c :: p') ++ s) = true := by
      rw [List.isPrefixOf_iff_prefix]
      exact List.prefix_append _ _
    show replaceAll (c :: p') repl (c :: (p' ++ s)) = _
    rw [replaceAll]
    simp only [List.cons_append] at hpre
    rw [if_pos ⟨by simp, hpre⟩]
    simp only [List.length_cons, Nat.add_sub_cancel]
    rw [List.drop_left]

/-- The remapping strips a leading `encoder.` from a weight key. -/
theorem remap_key_encoder_drop (s : List Char) :
    remap_key (("encoder.".data) ++ s) = remap_key s := by
  unfold remap_key
  rw [replaceAll_pattern_append _ _ _ (by decide)]
  rfl

/-- Claim C1: loading a Quartznet/NeMo checkpoint remaps every encoder
weight key (dropping the `encoder.` prefix, the `.conv` segments, and
turning `.res.0` into `.res`) and loads in strict mode: the load succeeds
exactly when the remapped keys match the module parameters on both sides,
in which case precisely the remapped dictionaries are applied, and any
remaining key mismatch makes the whole load raise with no partial
application of weights. -/
theorem load_quartznet_weights_strict {α : Type}
    (encParams decParams : List (List Char))
    (weights : List (List Char × α)) :
    (∀ s, remap_key (("encoder.".data) ++ s) = remap_key s) ∧
    (∀ r, load_quartznet_weights encParams decParams weights =
        Except.ok r ↔
      (sameKeySet ((encoderWeights weights).map Prod.fst) encParams = true ∧
       sameKeySet ((decoderWeights weights).map Prod.fst) decParams = true ∧
       r = (encoderWeights weights, decoderWeights weights))) ∧
    ((sameKeySet ((encoderWeights weights).map Prod.fst) encParams = false ∨
      sameKeySet ((decoderWeights weights).map Prod.fst) decParams = false) →
      load_quartznet_weights encParams decParams weights =
        Except.error "Error(s) in loading state_dict") := by
  refine ⟨remap_key_encoder_drop, ?_, ?_⟩
  · intro r
    by_cases h1 : sameKeySet ((encoderWeights weights).map Prod.fst)
        encParams <;>
      by_cases h2 : sameKeySet ((decoderWeights weights).map Prod.fst)
          decParams <;>
        simp [load_quartznet_weights, load_state_dict, h1, h2, eq_comm,
          Bind.bind, Except.bind, Functor.map, Except.map, Pure.pure,
          Except.pure]
  · intro h
    rcases h with h | h
    · simp [load_quartznet_weights, load_state_dict, h,
        Bind.bind, Except.bind]
    · by_cases h1 : sameKeySet ((encoderWeights weights).map Prod.fst)
          encParams <;>
        simp [load_quartznet_weights, load_state_dict, h, h1,
          Bind.bind, Except.bind, Functor.map, Except.map]

/-- Witness for C1: a checkpoint whose only key remaps onto the encoder
parameter leaves the decoder parameter `bias` unmatched, so the load
raises. -/
theorem load_quartznet_weights_strict_witness :
    load_quartznet_weights [("weight".data)] [("bias".data)]
      [(("encoder.weight".data), (0 : Int))] =
      Except.error "Error(s) in loading state_dict" :=
  (load_quartznet_weights_strict _ _ _).2.2 (Or.inr (by decide))

end ThunderSpeech
